import Mathlib

/-!
Shallow embedding of the semantic matching engine of the ETL_ET repository
(files src/match/scoring.py, src/match/matcher.py, src/match/embedder.py,
src/models/schemas.py, src/config/settings.py).

Python floats are modelled as exact rationals, Python strings as Lean
strings, fallible calls (numpy shape errors, the embedding provider) as
Except values.  The external fuzzy string similarity (rapidfuzz) and the
external embedding provider (sentence-transformers) are parameters of the
embedded functions, as they are third-party libraries, not repository code.
The per-query wall-clock duration that match_single measures with
time.time() is passed in as an explicit argument.
-/

set_option maxRecDepth 8192

namespace ETL

/-- MatchStatus enum, from src/models/schemas.py. -/
inductive MatchStatus where
  | MATCHED
  | AMBIGUOUS
  | NO_MATCH
  | MANUAL_REVIEW
deriving DecidableEq, Repr

/-- Match-method tag returned by get_match_method in src/match/scoring.py
(the Python code uses the strings "code", "semantic", "fuzzy", "hybrid"). -/
inductive MatchMethod where
  | code
  | semantic
  | fuzzy
  | hybrid
deriving DecidableEq, Repr

/-- MatchEvidence, from src/models/schemas.py. -/
structure MatchEvidence where
  wbs_code : String
  wbs_description : String
  similarity_score : ℚ
  fuzzy_score : ℚ
  combined_score : ℚ
  match_method : MatchMethod
  snippet_et : Option String
  snippet_wbs : Option String
deriving DecidableEq, Repr

/-- MatchResult, from src/models/schemas.py. -/
structure MatchResult where
  et_rubro_id : String
  et_code : Option String
  et_description : String
  status : MatchStatus
  best_match : Option MatchEvidence
  alternative_matches : List MatchEvidence
  confidence : ℚ
  processing_time_ms : ℚ
deriving DecidableEq, Repr

/-- Rubro (the query item), from src/models/schemas.py; only the fields the
matcher reads. codigo, descripcion and unidad are required fields there. -/
structure Rubro where
  rubro_id : String
  codigo : String
  descripcion : String
  unidad : String
deriving DecidableEq, Repr

/-- ReferenceRubro, from src/models/schemas.py. -/
structure ReferenceRubro where
  wbs_code : String
  description : String
  unit : Option String
  category : Option String
  embedding : Option (List ℚ)
deriving DecidableEq, Repr

/-- The two matching thresholds of src/config/settings.py consumed by
SemanticMatcher._classify_match. -/
structure Settings where
  MATCH_THRESHOLD : ℚ
  MATCH_AMBIGUOUS_THRESHOLD : ℚ
deriving DecidableEq, Repr

/-- Default threshold values from src/config/settings.py
(MATCH_THRESHOLD = 0.75, MATCH_AMBIGUOUS_THRESHOLD = 0.65). -/
def defaultSettings : Settings := ⟨0.75, 0.65⟩

/-- ScoringWeights dataclass fields, from src/match/scoring.py. -/
structure ScoringWeights where
  semantic : ℚ
  fuzzy : ℚ
  code_match : ℚ
  unit_match : ℚ
deriving DecidableEq, Repr

/-- Sum of the four weights, as computed in ScoringWeights.__post_init__. -/
def weightsTotal (w : ScoringWeights) : ℚ :=
  w.semantic + w.fuzzy + w.code_match + w.unit_match

/-- ScoringWeights construction: __post_init__ raises ValueError unless the
total lies in the tolerance interval [0.99, 1.01]. -/
def mkScoringWeights (s f c u : ℚ) : Except String ScoringWeights :=
  let w : ScoringWeights := ⟨s, f, c, u⟩
  if 0.99 ≤ weightsTotal w ∧ weightsTotal w ≤ 1.01 then Except.ok w
  else Except.error "Los pesos deben sumar 1.0"

/-- Default weights of the ScoringWeights dataclass
(semantic 0.7, fuzzy 0.2, code_match 0.05, unit_match 0.05). -/
def defaultWeights : ScoringWeights := ⟨0.7, 0.2, 0.05, 0.05⟩

/-- normalize_fuzzy_score from src/match/scoring.py: divide by 100. -/
def normalize_fuzzy_score (fuzzy_score : ℚ) : ℚ := fuzzy_score / 100

/-- Python str.strip strips these whitespace characters from both ends. -/
def pyWhitespace (c : Char) : Bool :=
  c == ' ' || c == '\t' || c == '\n' || c == '\r'

/-- Python s.strip() on a character list. -/
def pyStripList (s : List Char) : List Char :=
  ((s.dropWhile pyWhitespace).reverse.dropWhile pyWhitespace).reverse

/-- Python s.strip(). -/
def pyStrip (s : String) : String := ⟨pyStripList s.data⟩

/-- Python s.lower() (ASCII letters; the codes and units used by the
repository do not rely on non-ASCII case folding). -/
def pyLower (s : String) : String := ⟨s.data.map Char.toLower⟩

/-- Python s.replace of a single space by the empty string. -/
def removeSpaces (s : String) : String := ⟨s.data.filter (fun c => c != ' ')⟩

/-- The normalization applied to each code inside code_similarity:
strip().lower().replace of spaces. -/
def normCode (c : String) : String := removeSpaces (pyLower (pyStrip c))

/-- code_similarity from src/match/scoring.py. -/
def code_similarity (code1 code2 : Option String) : ℚ :=
  match code1, code2 with
  | some c1, some c2 => if normCode c1 = normCode c2 then 1 else 0
  | _, _ => 0

/-- The normalization applied to each unit inside unit_similarity:
strip().lower(). -/
def normUnit (u : String) : String := pyLower (pyStrip u)

/-- The hardcoded compatible_pairs list inside unit_similarity. -/
def compatible_pairs : List (String × String) :=
  [("m2", "m²"), ("m^2", "m²"),
   ("m3", "m³"), ("m^3", "m³"),
   ("kg", "kilogramo"), ("kgs", "kg"),
   ("u", "und"), ("u", "unidad"), ("und", "unidad")]

/-- The loop over compatible_pairs inside unit_similarity, checking the
pair in both directions. -/
def unitsCompatible (u1 u2 : String) : Bool :=
  compatible_pairs.any (fun pq => (u1 == pq.1 && u2 == pq.2) || (u1 == pq.2 && u2 == pq.1))

/-- unit_similarity from src/match/scoring.py. -/
def unit_similarity (unit1 unit2 : Option String) : ℚ :=
  match unit1, unit2 with
  | some a, some b =>
    let u1 := normUnit a
    let u2 := normUnit b
    if u1 = u2 then 1
    else if unitsCompatible u1 u2 then 1/2
    else 0
  | _, _ => 0

/-- combined_score from src/match/scoring.py; weights = none means the
default ScoringWeights() is used. -/
def combined_score (semantic_score fuzzy_score code_match unit_match : ℚ)
    (weights : Option ScoringWeights) : ℚ :=
  let w := weights.getD defaultWeights
  w.semantic * semantic_score +
  w.fuzzy * normalize_fuzzy_score fuzzy_score +
  w.code_match * code_match +
  w.unit_match * unit_match

/-- get_match_method from src/match/scoring.py. -/
def get_match_method (semantic_score fuzzy_score code_match : ℚ) : MatchMethod :=
  let fn := normalize_fuzzy_score fuzzy_score
  if code_match ≥ 0.9 then MatchMethod.code
  else if semantic_score > fn + 0.1 then MatchMethod.semantic
  else if fn > semantic_score + 0.1 then MatchMethod.fuzzy
  else MatchMethod.hybrid

/-- The pluggable fuzzy string-similarity function (rapidfuzz in the
source, an external library); contracted range [0, 100]. -/
def FuzzyFn : Type := String → String → ℚ

/-- calculate_match_score from src/match/scoring.py.  When the caller
passes no precalculated semantic score, the normalized fuzzy score is used
in its place. -/
def calculate_match_score (fz : FuzzyFn)
    (et_description wbs_description : String)
    (et_code wbs_code : Option String)
    (et_unit wbs_unit : Option String)
    (semantic_score : Option ℚ)
    (weights : Option ScoringWeights) : ℚ × MatchMethod :=
  let sem : ℚ :=
    match semantic_score with
    | none => normalize_fuzzy_score (fz et_description wbs_description)
    | some v => v
  let fuzzy_score := fz et_description wbs_description
  let code := code_similarity et_code wbs_code
  let unit := unit_similarity et_unit wbs_unit
  let score := combined_score sem fuzzy_score code unit weights
  let method := get_match_method sem fuzzy_score code
  (score, method)

/-- The external embedding provider: encode_single in src/match/embedder.py
maps a text to a dense vector and may fail (remote model call). -/
def EmbedFn : Type := String → Except String (List ℚ)

/-- Inner product of two equal-length 1-D vectors. -/
def dotList : List ℚ → List ℚ → ℚ
  | a :: as, b :: bs => a * b + dotList as bs
  | _, _ => 0

/-- batch_cosine_similarity from src/match/embedder.py: np.dot of the
corpus matrix with the query vector.  np.array of an empty row list yields
a 1-D array of shape zero, and np.dot then raises ValueError against a
nonempty query vector; with rows present, every row must have the query's
length or numpy raises. -/
def batch_cosine_similarity (query_embedding : List ℚ)
    (corpus_embeddings : List (List ℚ)) : Except String (List ℚ) :=
  match corpus_embeddings with
  | [] =>
    if query_embedding.length = 0 then Except.ok []
    else Except.error "shapes not aligned"
  | rows =>
    if rows.all (fun r => r.length = query_embedding.length) then
      Except.ok (rows.map (fun r => dotList r query_embedding))
    else Except.error "shapes not aligned"

/-- np.argsort: indices that sort the score list ascending (a concrete
deterministic tie order; numpy's is likewise deterministic). -/
def argsortAsc (scores : List ℚ) : List Nat :=
  List.insertionSort (fun i j => scores.getD i 0 ≤ scores.getD j 0)
    (List.range scores.length)

/-- np.argsort(scores) followed by the [::-1] reversal used in
_search_semantic. -/
def argsortDesc (scores : List ℚ) : List Nat := (argsortAsc scores).reverse

/-- SemanticMatcher._search_semantic, linear-search branch (the mandatory
fallback; the FAISS branch is an optional accelerated variant of the same
top-k query).  The corpus matrix is built from the reference embeddings;
a missing embedding would make np.array fail. -/
def search_semantic (refs : List ReferenceRubro) (query_embedding : List ℚ)
    (top_k : Nat) : Except String (List Nat × List ℚ) :=
  match refs.mapM (fun r => r.embedding) with
  | none => Except.error "missing embedding"
  | some matrix =>
    match batch_cosine_similarity query_embedding matrix with
    | Except.error e => Except.error e
    | Except.ok scores =>
      let top_indices := (argsortDesc scores).take top_k
      Except.ok (top_indices, top_indices.map (fun i => scores.getD i 0))

/-- Construction of one MatchEvidence inside _refine_candidates:
calculate_match_score with the retrieved semantic score and default
weights, plus the token-set-ratio fuzzy score and 200-character snippets. -/
def mkEvidence (fz : FuzzyFn) (rubro : Rubro) (candidate : ReferenceRubro)
    (semantic_score : ℚ) : MatchEvidence :=
  let cm := calculate_match_score fz rubro.descripcion candidate.description
    (some rubro.codigo) (some candidate.wbs_code)
    (some rubro.unidad) candidate.unit
    (some semantic_score) none
  ⟨candidate.wbs_code, candidate.description, semantic_score,
   fz rubro.descripcion candidate.description, cm.1, cm.2,
   some (rubro.descripcion.take 200), some (candidate.description.take 200)⟩

/-- The evidence list of _refine_candidates before its final sort, in
retrieval order: zip of candidate indices with semantic scores, each index
looked up in the reference list. -/
def refineCandidatesRaw (fz : FuzzyFn) (rubro : Rubro)
    (refs : List ReferenceRubro) (candidates_indices : List Nat)
    (semantic_scores : List ℚ) : List MatchEvidence :=
  (candidates_indices.zip semantic_scores).filterMap
    (fun p => (refs.get? p.1).map (fun c => mkEvidence fz rubro c p.2))

/-- Sort key relation of evidences.sort with reverse=True: descending by
combined_score. -/
def evidenceGE (a b : MatchEvidence) : Prop :=
  b.combined_score ≤ a.combined_score

instance : DecidableRel evidenceGE :=
  fun a b => inferInstanceAs (Decidable (b.combined_score ≤ a.combined_score))

instance : IsTotal MatchEvidence evidenceGE :=
  ⟨fun a b => le_total b.combined_score a.combined_score⟩

instance : IsTrans MatchEvidence evidenceGE :=
  ⟨fun _ _ _ hab hbc => le_trans hbc hab⟩

/-- SemanticMatcher._refine_candidates: build the evidences and sort them
by combined_score descending with Python's stable list sort. -/
def refine_candidates (fz : FuzzyFn) (rubro : Rubro)
    (refs : List ReferenceRubro) (candidates_indices : List Nat)
    (semantic_scores : List ℚ) : List MatchEvidence :=
  List.insertionSort evidenceGE
    (refineCandidatesRaw fz rubro refs candidates_indices semantic_scores)

/-- SemanticMatcher._classify_match, translated branch for branch from
src/match/matcher.py. -/
def classify_match (st : Settings) (rubro : Rubro)
    (evidences : List MatchEvidence) (processing_time_ms : ℚ) : MatchResult :=
  match evidences with
  | [] =>
    ⟨rubro.rubro_id, some rubro.codigo, rubro.descripcion,
     MatchStatus.NO_MATCH, none, [], 0, processing_time_ms⟩
  | best_evidence :: rest =>
    let best_score := best_evidence.combined_score
    let status :=
      if best_score ≥ st.MATCH_THRESHOLD then
        match rest with
        | second :: _ =>
          if best_score - second.combined_score < st.MATCH_AMBIGUOUS_THRESHOLD
          then MatchStatus.AMBIGUOUS
          else MatchStatus.MATCHED
        | [] => MatchStatus.MATCHED
      else if best_score ≥ st.MATCH_AMBIGUOUS_THRESHOLD then
        MatchStatus.MANUAL_REVIEW
      else MatchStatus.NO_MATCH
    let alternatives :=
      if (best_evidence :: rest).length > 1
      then ((best_evidence :: rest).drop 1).take 3
      else []
    ⟨rubro.rubro_id, some rubro.codigo, rubro.descripcion, status,
     if status ≠ MatchStatus.NO_MATCH then some best_evidence else none,
     alternatives, best_score, processing_time_ms⟩

/-- SemanticMatcher.match_single: embed the query description, retrieve
top-k candidates, refine, classify.  processing_time_ms stands for the
wall-clock duration the Python code measures with time.time(). -/
def match_single (fz : FuzzyFn) (embed : EmbedFn) (st : Settings)
    (refs : List ReferenceRubro) (rubro : Rubro) (top_k : Nat)
    (processing_time_ms : ℚ) : Except String MatchResult :=
  match embed rubro.descripcion with
  | Except.error e => Except.error e
  | Except.ok et_embedding =>
    match search_semantic refs et_embedding top_k with
    | Except.error e => Except.error e
    | Except.ok (candidates_indices, semantic_scores) =>
      Except.ok (classify_match st rubro
        (refine_candidates fz rubro refs candidates_indices semantic_scores)
        processing_time_ms)

/-- SemanticMatcher.match_batch: sequential loop of match_single over the
queries, appending each result; an exception raised for one query
propagates out of the loop. -/
def match_batch (fz : FuzzyFn) (embed : EmbedFn) (st : Settings)
    (refs : List ReferenceRubro) (rubros : List Rubro) (top_k : Nat)
    (processing_time_ms : ℚ) : Except String (List MatchResult) :=
  rubros.mapM (fun r => match_single fz embed st refs r top_k processing_time_ms)

/-- A MatchResult with its processing_time_ms field cleared: the projection
of a result onto its time-independent fields. -/
def eraseTime (r : MatchResult) : MatchResult :=
  ⟨r.et_rubro_id, r.et_code, r.et_description, r.status, r.best_match,
   r.alternative_matches, r.confidence, 0⟩

/-- A concrete fuzzy similarity returning the constant 50 (any function in
the contracted [0,100] range is admissible; rapidfuzz is external). -/
def fzC : FuzzyFn := fun _ _ => 50

/-- A concrete embedding provider that fails (raises) exactly on the
query text "q2desc" and returns the unit vector [1] otherwise. -/
def embedC : EmbedFn := fun s =>
  if s = "q2desc" then Except.error "provider timeout" else Except.ok [1]

/-- A concrete embedding provider that always succeeds with the unit
vector [1]. -/
def embedOk : EmbedFn := fun _ => Except.ok [1]

/-- A one-item reference corpus whose embedding is already generated. -/
def refsC : List ReferenceRubro := [⟨"W1", "ref desc", none, none, some [1]⟩]

/-- A concrete query rubro. -/
def rubroA : Rubro := ⟨"r1", "c1", "q1desc", "m"⟩

/-- A concrete query rubro whose description makes embedC fail. -/
def rubroB : Rubro := ⟨"r2", "c2", "q2desc", "m"⟩

/-- The evidence match_single produces for rubroA against refsC with fzC
and the unit embedding: semantic 1, fuzzy 50, combined 0.7·1 + 0.2·0.5 = 0.8. -/
def evA : MatchEvidence :=
  ⟨"W1", "ref desc", 1, 50, 0.8, MatchMethod.semantic, some "q1desc", some "ref desc"⟩

/-- The result of match_single for rubroA at elapsed time 1 ms. -/
def resA1 : MatchResult :=
  ⟨"r1", some "c1", "q1desc", MatchStatus.MATCHED, some evA, [], 0.8, 1⟩

/-- The result of match_single for rubroA at elapsed time 2 ms. -/
def resA2 : MatchResult :=
  ⟨"r1", some "c1", "q1desc", MatchStatus.MATCHED, some evA, [], 0.8, 2⟩

/-- An evidence whose combined_score 0.2 lies below the manual-review
floor MATCH_AMBIGUOUS_THRESHOLD = 0.65. -/
def evLow : MatchEvidence :=
  ⟨"W1", "ref desc", 0.1, 10, 0.2, MatchMethod.hybrid, none, none⟩

/-- Another low evidence, combined_score 0.3 < 0.65. -/
def evLow2 : MatchEvidence :=
  ⟨"W2", "ref desc2", 0.2, 30, 0.3, MatchMethod.hybrid, none, none⟩

/-- An evidence whose combined_score equals MATCH_THRESHOLD = 0.75
exactly. -/
def evT : MatchEvidence :=
  ⟨"W1", "ref desc", 0.9, 60, 0.75, MatchMethod.hybrid, none, none⟩

/-! Helper lemmas. -/

/-- Inserting an evidence into a list with the descending-by-score
relation leaves the subsequence of any fixed score value in place, with
the inserted element in front of its own score class. -/
theorem filter_orderedInsert_evidence (c : ℚ) (a : MatchEvidence) :
    ∀ l : List MatchEvidence,
      (List.orderedInsert evidenceGE a l).filter
          (fun e => decide (e.combined_score = c)) =
        if a.combined_score = c then
          a :: l.filter (fun e => decide (e.combined_score = c))
        else l.filter (fun e => decide (e.combined_score = c)) := by
  intro l
  induction l with
  | nil =>
    by_cases h : a.combined_score = c <;>
      simp [List.orderedInsert, List.filter_cons, h]
  | cons b t ih =>
    simp only [List.orderedInsert]
    by_cases hr : evidenceGE a b
    · rw [if_pos hr]
      by_cases h : a.combined_score = c <;> simp [List.filter_cons, h]
    · rw [if_neg hr]
      by_cases h : a.combined_score = c
      · have hb : ¬ b.combined_score = c := by
          intro hbc
          exact hr (le_of_eq (hbc.trans h.symm))
        simp [List.filter_cons, hb, ih, h]
      · by_cases hb : b.combined_score = c <;>
          simp [List.filter_cons, hb, ih, h]

/-- The stable sort of _refine_candidates does not reorder evidences of
equal combined_score: filtering any score class commutes with sorting. -/
theorem filter_insertionSort_evidence (c : ℚ) :
    ∀ l : List MatchEvidence,
      (List.insertionSort evidenceGE l).filter
          (fun e => decide (e.combined_score = c)) =
        l.filter (fun e => decide (e.combined_score = c)) := by
  intro l
  induction l with
  | nil => rfl
  | cons a t ih =>
    simp only [List.insertionSort, filter_orderedInsert_evidence, ih]
    by_cases h : a.combined_score = c <;> simp [List.filter_cons, h]

/-- The both-direction pair check of unit_similarity is symmetric in the
two units, for any pair list. -/
theorem any_pair_swap (u1 u2 : String) :
    ∀ l : List (String × String),
      l.any (fun pq => (u1 == pq.1 && u2 == pq.2) || (u1 == pq.2 && u2 == pq.1)) =
      l.any (fun pq => (u2 == pq.1 && u1 == pq.2) || (u2 == pq.2 && u1 == pq.1)) := by
  intro l
  induction l with
  | nil => rfl
  | cons h t ih =>
    have hh : ((u1 == h.1 && u2 == h.2) || (u1 == h.2 && u2 == h.1)) =
        ((u2 == h.1 && u1 == h.2) || (u2 == h.2 && u1 == h.1)) := by
      cases hb1 : u1 == h.1 <;> cases hb2 : u2 == h.2 <;>
        cases hb3 : u1 == h.2 <;> cases hb4 : u2 == h.1 <;> rfl
    simp [List.any_cons, ih, hh]

/-- unitsCompatible is symmetric. -/
theorem unitsCompatible_comm (u1 u2 : String) :
    unitsCompatible u1 u2 = unitsCompatible u2 u1 :=
  any_pair_swap u1 u2 compatible_pairs

/-- C8: the evidence list of _refine_candidates is ordered by
combined_score descending, is a permutation of the evidences in retrieval
order, and the sort is stable: every score class keeps its original
retrieval order. -/
theorem c8_evidence_order_stable (fz : FuzzyFn) (rubro : Rubro)
    (refs : List ReferenceRubro) (candidates_indices : List Nat)
    (semantic_scores : List ℚ) :
    List.Pairwise (fun a b => b.combined_score ≤ a.combined_score)
        (refine_candidates fz rubro refs candidates_indices semantic_scores) ∧
    (refine_candidates fz rubro refs candidates_indices semantic_scores).Perm
        (refineCandidatesRaw fz rubro refs candidates_indices semantic_scores) ∧
    ∀ c : ℚ,
      (refine_candidates fz rubro refs candidates_indices semantic_scores).filter
          (fun e => decide (e.combined_score = c)) =
        (refineCandidatesRaw fz rubro refs candidates_indices semantic_scores).filter
          (fun e => decide (e.combined_score = c)) := by
  refine ⟨?_, ?_, ?_⟩
  · exact List.sorted_insertionSort evidenceGE _
  · exact List.perm_insertionSort evidenceGE _
  · intro c
    exact filter_insertionSort_evidence c _

/-- C9: code_similarity is symmetric; it is case/whitespace-insensitive as
on the example pair "A.01" and " a.01 "; on two present codes it returns 1
exactly when the normalized codes agree; it is two-valued; and it returns
0 whenever either code is absent. -/
theorem c9_code_similarity_props :
    (∀ a b : Option String, code_similarity a b = code_similarity b a) ∧
    code_similarity (some "A.01") (some " a.01 ") = 1 ∧
    (∀ a b : String,
      (code_similarity (some a) (some b) = 1 ↔ normCode a = normCode b)) ∧
    (∀ a b : Option String,
      code_similarity a b = 1 ∨ code_similarity a b = 0) ∧
    (∀ b : Option String,
      code_similarity none b = 0 ∧ code_similarity b none = 0) := by
  refine ⟨?_, ?_, ?_, ?_, ?_⟩
  · intro a b
    cases a with
    | none => cases b <;> rfl
    | some x =>
      cases b with
      | none => rfl
      | some y =>
        simp only [code_similarity]
        by_cases h : normCode x = normCode y
        · rw [if_pos h, if_pos h.symm]
        · rw [if_neg h, if_neg (fun hh => h hh.symm)]
  · decide
  · intro a b
    simp only [code_similarity]
    split_ifs with h <;> simp [h]
  · intro a b
    cases a with
    | none => cases b <;> simp [code_similarity]
    | some x =>
      cases b with
      | none => simp [code_similarity]
      | some y =>
        simp only [code_similarity]
        split_ifs <;> simp
  · intro b
    cases b <;> exact ⟨rfl, rfl⟩

/-- C10: unit_similarity is symmetric, three-valued in 0, 1/2, 1, returns
0 whenever either unit is absent, and assigns 1/2 in both directions to
every pair of the hardcoded compatibility list. -/
theorem c10_unit_similarity_props :
    (∀ u1 u2 : Option String, unit_similarity u1 u2 = unit_similarity u2 u1) ∧
    (∀ u1 u2 : Option String,
      unit_similarity u1 u2 = 0 ∨ unit_similarity u1 u2 = 1/2 ∨
        unit_similarity u1 u2 = 1) ∧
    (∀ u : Option String,
      unit_similarity none u = 0 ∧ unit_similarity u none = 0) ∧
    (∀ p ∈ compatible_pairs,
      unit_similarity (some p.1) (some p.2) = 1/2 ∧
      unit_similarity (some p.2) (some p.1) = 1/2) := by
  refine ⟨?_, ?_, ?_, ?_⟩
  · intro u1 u2
    cases u1 with
    | none => cases u2 <;> rfl
    | some a =>
      cases u2 with
      | none => rfl
      | some b =>
        simp only [unit_similarity]
        by_cases h : normUnit a = normUnit b
        · rw [if_pos h, if_pos h.symm]
        · rw [if_neg h,
            if_neg (show ¬ normUnit b = normUnit a from fun hh => h hh.symm),
            unitsCompatible_comm]
  · intro u1 u2
    cases u1 with
    | none => cases u2 <;> simp [unit_similarity]
    | some a =>
      cases u2 with
      | none => simp [unit_similarity]
      | some b =>
        simp only [unit_similarity]
        split_ifs <;> simp
  · intro u
    cases u <;> exact ⟨rfl, rfl⟩
  · intro p hp
    fin_cases hp <;> exact ⟨rfl, rfl⟩

/-- C10 witness: the first hardcoded pair is compatible in both
directions at value 1/2. -/
theorem c10_witness :
    unit_similarity (some "m2") (some "m²") = 1/2 ∧
    unit_similarity (some "m²") (some "m2") = 1/2 :=
  c10_unit_similarity_props.2.2.2 ("m2", "m²") (by decide)

/-- The best_match field of a classification with at least one evidence is
either the top evidence or none. -/
theorem classify_best_match_cases (st : Settings) (rubro : Rubro)
    (b : MatchEvidence) (l : List MatchEvidence) (t : ℚ) :
    (classify_match st rubro (b :: l) t).best_match = some b ∨
    (classify_match st rubro (b :: l) t).best_match = none := by
  simp only [classify_match]
  split_ifs <;> simp

/-- C7: a best candidate whose combined_score equals MATCH_THRESHOLD
exactly meets the threshold (the comparison is inclusive), so
classification lands in the MATCHED/AMBIGUOUS branch, never in
MANUAL_REVIEW or NO_MATCH. -/
theorem c7_threshold_inclusive (st : Settings) (rubro : Rubro) (t : ℚ)
    (best : MatchEvidence) (rest : List MatchEvidence)
    (h : best.combined_score = st.MATCH_THRESHOLD) :
    (classify_match st rubro (best :: rest) t).status = MatchStatus.MATCHED ∨
    (classify_match st rubro (best :: rest) t).status = MatchStatus.AMBIGUOUS := by
  have hge : best.combined_score ≥ st.MATCH_THRESHOLD := ge_of_eq h
  simp only [classify_match]
  rw [if_pos hge]
  cases rest with
  | nil => exact Or.inl rfl
  | cons second tail =>
    show
      (if best.combined_score - second.combined_score <
          st.MATCH_AMBIGUOUS_THRESHOLD then MatchStatus.AMBIGUOUS
        else MatchStatus.MATCHED) = MatchStatus.MATCHED ∨
      (if best.combined_score - second.combined_score <
          st.MATCH_AMBIGUOUS_THRESHOLD then MatchStatus.AMBIGUOUS
        else MatchStatus.MATCHED) = MatchStatus.AMBIGUOUS
    by_cases ha :
        best.combined_score - second.combined_score < st.MATCH_AMBIGUOUS_THRESHOLD
    · rw [if_pos ha]
      exact Or.inr rfl
    · rw [if_neg ha]
      exact Or.inl rfl

/-- C7 witness: with the default thresholds, a single evidence scoring
exactly 0.75 is classified MATCHED or AMBIGUOUS. -/
theorem c7_witness :
    (classify_match defaultSettings rubroA [evT] 0).status = MatchStatus.MATCHED ∨
    (classify_match defaultSettings rubroA [evT] 0).status = MatchStatus.AMBIGUOUS :=
  c7_threshold_inclusive defaultSettings rubroA 0 evT []
    (by norm_num [evT, defaultSettings])

/-- C3 counterexample: one evidence with combined_score 0.2 (below the
0.65 floor) yields status NO_MATCH with best_match = none, not a non-null
rejected best as the claim states. -/
theorem c3_counterexample :
    (classify_match defaultSettings rubroA [evLow] 0).status = MatchStatus.NO_MATCH ∧
    (classify_match defaultSettings rubroA [evLow] 0).best_match = none := by
  norm_num [classify_match, evLow, defaultSettings]

/-- C3 amended: when evidences exist but the best combined_score is below
MATCH_AMBIGUOUS_THRESHOLD, the status is NO_MATCH and best_match is None
(the rejected candidate is dropped); its score is still recorded as the
result's confidence. -/
theorem c3_amended_theorem (st : Settings) (rubro : Rubro) (t : ℚ)
    (best : MatchEvidence) (rest : List MatchEvidence)
    (hlt : best.combined_score < st.MATCH_AMBIGUOUS_THRESHOLD)
    (hord : st.MATCH_AMBIGUOUS_THRESHOLD ≤ st.MATCH_THRESHOLD) :
    (classify_match st rubro (best :: rest) t).status = MatchStatus.NO_MATCH ∧
    (classify_match st rubro (best :: rest) t).best_match = none ∧
    (classify_match st rubro (best :: rest) t).confidence = best.combined_score := by
  have h1 : ¬ best.combined_score ≥ st.MATCH_THRESHOLD :=
    not_le.mpr (lt_of_lt_of_le hlt hord)
  have h2 : ¬ best.combined_score ≥ st.MATCH_AMBIGUOUS_THRESHOLD :=
    not_le.mpr hlt
  simp only [classify_match]
  rw [if_neg h1, if_neg h2]
  constructor
  · rfl
  constructor
  · simp
  · trivial

/-- C3 witness: a concrete rejected evidence scoring 0.3 under the default
thresholds. -/
theorem c3_witness :
    (classify_match defaultSettings rubroA [evLow2] 0).status = MatchStatus.NO_MATCH ∧
    (classify_match defaultSettings rubroA [evLow2] 0).best_match = none ∧
    (classify_match defaultSettings rubroA [evLow2] 0).confidence =
      evLow2.combined_score :=
  c3_amended_theorem defaultSettings rubroA 0 evLow2 []
    (by norm_num [evLow2, defaultSettings]) (by norm_num [defaultSettings])

/-- C4 counterexample: a result whose best_match is None can carry a
nonzero confidence (the rejected top score), contradicting the claim that
a null best implies confidence 0.0. -/
theorem c4_counterexample :
    (classify_match defaultSettings rubroA [evLow2] 0).best_match = none ∧
    (classify_match defaultSettings rubroA [evLow2] 0).confidence ≠ 0 := by
  norm_num [classify_match, evLow2, defaultSettings]

/-- C4 amended: confidence equals the top evidence's combined_score
whenever evidences exist — even when best_match is None because the status
is NO_MATCH — and equals 0 only when there are no evidences; whenever
best_match is non-null, confidence equals its combined_score. -/
theorem c4_amended_theorem (st : Settings) (rubro : Rubro)
    (evidences : List MatchEvidence) (t : ℚ) :
    (evidences = [] →
      (classify_match st rubro evidences t).confidence = 0 ∧
      (classify_match st rubro evidences t).best_match = none) ∧
    (∀ best rest, evidences = best :: rest →
      (classify_match st rubro evidences t).confidence = best.combined_score) ∧
    (∀ ev, (classify_match st rubro evidences t).best_match = some ev →
      (classify_match st rubro evidences t).confidence = ev.combined_score) := by
  cases evidences with
  | nil =>
    refine ⟨fun _ => ⟨rfl, rfl⟩, fun best rest h => List.noConfusion h,
      fun ev h => Option.noConfusion h⟩
  | cons b l =>
    refine ⟨fun h => List.noConfusion h, fun best rest h => ?_, fun ev h => ?_⟩
    · injection h with hb hl
      rw [hb] at *
      rfl
    · rcases classify_best_match_cases st rubro b l t with hc | hc
      · rw [hc] at h
        injection h with he
        rw [← he]
        rfl
      · rw [hc] at h
        exact Option.noConfusion h

/-- C4 witness: with the single MATCHED evidence evA, the confidence is
its combined_score. -/
theorem c4_witness :
    (classify_match defaultSettings rubroA [evA] 0).confidence =
      evA.combined_score :=
  (c4_amended_theorem defaultSettings rubroA [evA] 0).2.1 evA [] rfl

/-- C2: on an empty reference corpus the linear search path fails with the
numpy shape error instead of returning a result, although the dedicated
empty-evidence branch of _classify_match would produce exactly the
NO_MATCH / confidence 0 / null best / empty alternatives result the spec
describes. -/
theorem c2_empty_corpus_behavior :
    match_single fzC embedOk defaultSettings [] rubroA 5 0 =
      Except.error "shapes not aligned" ∧
    classify_match defaultSettings rubroA [] 0 =
      ⟨"r1", some "c1", "q1desc", MatchStatus.NO_MATCH, none, [], 0, 0⟩ :=
  ⟨rfl, rfl⟩

/-- C1 counterexample: a provider failure on the second query of a
two-query batch aborts the whole batch with the provider error; no list of
MatchResults is produced at all. -/
theorem c1_counterexample :
    match_batch fzC embedC defaultSettings refsC [rubroA, rubroB] 5 0 =
      Except.error "provider timeout" := by
  rfl

/-- A successful monadic map over a list produces exactly one output per
input. -/
theorem mapM_ok_length {α β : Type} (f : α → Except String β) :
    ∀ (xs : List α) (ys : List β), xs.mapM f = Except.ok ys →
      ys.length = xs.length := by
  intro xs
  induction xs with
  | nil =>
    intro ys h
    have h' : (Except.ok ([] : List β) : Except String (List β)) = Except.ok ys := h
    injection h' with hh
    rw [← hh]
    rfl
  | cons x xs ih =>
    intro ys h
    rw [List.mapM_cons] at h
    cases hfx : f x with
    | error e =>
      rw [hfx] at h
      exact Except.noConfusion h
    | ok y =>
      rw [hfx] at h
      cases hxs : xs.mapM f with
      | error e =>
        rw [hxs] at h
        exact Except.noConfusion h
      | ok ys' =>
        rw [hxs] at h
        have h' : (Except.ok (y :: ys') : Except String (List β)) = Except.ok ys := h
        injection h' with hh
        rw [← hh]
        simp [ih ys' hxs]

/-- C1 amended: match_single propagates embedding-provider failures, so
match_batch aborts on the first failing query; only when the whole batch
succeeds does it return exactly one MatchResult per input query.  The
fuzzy-only fallback (semantic score := normalized fuzzy score) lives in
calculate_match_score and fires only when it is called with no semantic
score, a path match_single never takes. -/
theorem c1_amended_theorem (fz : FuzzyFn) (embed : EmbedFn) (st : Settings)
    (refs : List ReferenceRubro) (top_k : Nat) (t : ℚ)
    (rubros : List Rubro) (results : List MatchResult)
    (h : match_batch fz embed st refs rubros top_k t = Except.ok results) :
    results.length = rubros.length ∧
    ∀ d1 d2 oc wc ou wu w,
      calculate_match_score fz d1 d2 oc wc ou wu none w =
      calculate_match_score fz d1 d2 oc wc ou wu
        (some (normalize_fuzzy_score (fz d1 d2))) w :=
  ⟨mapM_ok_length _ rubros results h, fun _ _ _ _ _ _ _ => rfl⟩

/-- C1 witness: a batch whose only query embeds successfully returns one
result for its one query. -/
theorem c1_witness :
    ([resA1] : List MatchResult).length = ([rubroA] : List Rubro).length :=
  (c1_amended_theorem fzC embedOk defaultSettings refsC 5 1 [rubroA] [resA1]
    (by
      have hs : match_single fzC embedOk defaultSettings refsC rubroA 5 1 =
          Except.ok resA1 := by
        have h1 : code_similarity (some "c1") (some "W1") = 0 := by decide
        have h2 : unit_similarity (some "m") none = 0 := by rfl
        have h3 : "q1desc".take 200 = "q1desc" := by decide
        have h4 : "ref desc".take 200 = "ref desc" := by decide
        norm_num [match_single, embedOk, fzC, refsC, rubroA, search_semantic,
          batch_cosine_similarity, dotList, argsortDesc, argsortAsc,
          refine_candidates, refineCandidatesRaw, mkEvidence,
          calculate_match_score, combined_score, get_match_method,
          normalize_fuzzy_score, defaultWeights, defaultSettings,
          classify_match, resA1, evA, List.insertionSort, List.orderedInsert,
          h1, h2, h3, h4, List.mapM, List.mapM.loop]
        intro h
        exact absurd h (by decide)
      rw [match_batch, List.mapM_cons, hs]
      rfl)).1

/-- Clearing the time field of a classification is the same as classifying
with time 0: the elapsed time influences no other field. -/
theorem eraseTime_classify (st : Settings) (rubro : Rubro)
    (evs : List MatchEvidence) (t : ℚ) :
    eraseTime (classify_match st rubro evs t) = classify_match st rubro evs 0 := by
  cases evs <;> rfl

/-- C5 counterexample: two runs of match_single on the same query and
corpus return MatchResults that are not equal in all fields — the
processing_time_ms field records the per-run elapsed time. -/
theorem c5_counterexample :
    match_single fzC embedOk defaultSettings refsC rubroA 5 1 = Except.ok resA1 ∧
    match_single fzC embedOk defaultSettings refsC rubroA 5 2 = Except.ok resA2 ∧
    resA1 ≠ resA2 := by
  refine ⟨?_, ?_, ?_⟩
  · have h1 : code_similarity (some "c1") (some "W1") = 0 := by decide
    have h2 : unit_similarity (some "m") none = 0 := by rfl
    have h3 : "q1desc".take 200 = "q1desc" := by decide
    have h4 : "ref desc".take 200 = "ref desc" := by decide
    norm_num [match_single, embedOk, fzC, refsC, rubroA, search_semantic,
      batch_cosine_similarity, dotList, argsortDesc, argsortAsc,
      refine_candidates, refineCandidatesRaw, mkEvidence,
      calculate_match_score, combined_score, get_match_method,
      normalize_fuzzy_score, defaultWeights, defaultSettings, classify_match,
      resA1, evA, List.insertionSort, List.orderedInsert, h1, h2, h3, h4,
      List.mapM, List.mapM.loop]
    intro h
    exact absurd h (by decide)
  · have h1 : code_similarity (some "c1") (some "W1") = 0 := by decide
    have h2 : unit_similarity (some "m") none = 0 := by rfl
    have h3 : "q1desc".take 200 = "q1desc" := by decide
    have h4 : "ref desc".take 200 = "ref desc" := by decide
    norm_num [match_single, embedOk, fzC, refsC, rubroA, search_semantic,
      batch_cosine_similarity, dotList, argsortDesc, argsortAsc,
      refine_candidates, refineCandidatesRaw, mkEvidence,
      calculate_match_score, combined_score, get_match_method,
      normalize_fuzzy_score, defaultWeights, defaultSettings, classify_match,
      resA2, evA, List.insertionSort, List.orderedInsert, h1, h2, h3, h4,
      List.mapM, List.mapM.loop]
    intro h
    exact absurd h (by decide)
  · intro hh
    have hpt := congrArg MatchResult.processing_time_ms hh
    norm_num [resA1, resA2] at hpt

/-- C5 amended: match_single is a deterministic function of the query,
corpus, embedder and fuzzy function — two runs differing only in measured
elapsed time agree on every field except processing_time_ms. -/
theorem c5_amended_theorem (fz : FuzzyFn) (embed : EmbedFn) (st : Settings)
    (refs : List ReferenceRubro) (rubro : Rubro) (top_k : Nat) (t1 t2 : ℚ) :
    (match_single fz embed st refs rubro top_k t1).map eraseTime =
    (match_single fz embed st refs rubro top_k t2).map eraseTime := by
  simp only [match_single]
  cases he : embed rubro.descripcion with
  | error e => rfl
  | ok v =>
    cases hs : search_semantic refs v top_k with
    | error e => simp only [hs]
    | ok p =>
      obtain ⟨ci, ss⟩ := p
      simp only [hs, Except.map, eraseTime_classify]

/-- C6 counterexample: the weight set (0.5, 0.25, 0.125, 0.13) does not
sum to 1.0, yet ScoringWeights construction accepts it (the validation
tolerance is the interval [0.99, 1.01]); with in-range inputs its fused
score is 1.005, outside [0, 1]. -/
theorem c6_counterexample :
    mkScoringWeights 0.5 0.25 0.125 0.13 =
      Except.ok ⟨0.5, 0.25, 0.125, 0.13⟩ ∧
    ((0.5 : ℚ) + 0.25 + 0.125 + 0.13) ≠ 1 ∧
    combined_score 1 100 1 1 (some ⟨0.5, 0.25, 0.125, 0.13⟩) = 1.005 ∧
    ¬ ((1.005 : ℚ) ≤ 1) := by
  refine ⟨?_, by norm_num, ?_, by norm_num⟩
  · norm_num [mkScoringWeights, weightsTotal]
  · norm_num [combined_score, normalize_fuzzy_score]

/-- C6 amended: ScoringWeights construction succeeds exactly when the
total weight lies in [0.99, 1.01] (so totals unequal to 1.0 inside the
tolerance are accepted); for accepted sets of nonnegative weights and
inputs in their contracted ranges, the fused score lies in [0, total],
and total ≤ 1.01. -/
theorem c6_amended_theorem (s f c u : ℚ) :
    ((∃ w, mkScoringWeights s f c u = Except.ok w) ↔
      (0.99 ≤ s + f + c + u ∧ s + f + c + u ≤ 1.01)) ∧
    (∀ w sem fuzzyv cm um,
      mkScoringWeights s f c u = Except.ok w →
      0 ≤ s → 0 ≤ f → 0 ≤ c → 0 ≤ u →
      0 ≤ sem → sem ≤ 1 → 0 ≤ fuzzyv → fuzzyv ≤ 100 →
      (cm = 0 ∨ cm = 1) → (um = 0 ∨ um = 1/2 ∨ um = 1) →
      0 ≤ combined_score sem fuzzyv cm um (some w) ∧
      combined_score sem fuzzyv cm um (some w) ≤ s + f + c + u ∧
      s + f + c + u ≤ 1.01) := by
  constructor
  · simp only [mkScoringWeights, weightsTotal]
    split_ifs with hcond
    · exact ⟨fun _ => hcond, fun _ => ⟨⟨s, f, c, u⟩, rfl⟩⟩
    · constructor
      · rintro ⟨w, hw⟩
        exact hw.elim
      · intro hh
        exact absurd hh hcond
  · intro w sem fuzzyv cm um hok hs hf hc hu hsem0 hsem1 hfz0 hfz1 hcm hum
    simp only [mkScoringWeights, weightsTotal] at hok
    split_ifs at hok with hcond
    injection hok with hw
    rw [← hw]
    have hcm0 : 0 ≤ cm := by rcases hcm with h | h <;> norm_num [h]
    have hcm1 : cm ≤ 1 := by rcases hcm with h | h <;> norm_num [h]
    have hum0 : 0 ≤ um := by
      rcases hum with h | h | h <;> norm_num [h]
    have hum1 : um ≤ 1 := by
      rcases hum with h | h | h <;> norm_num [h]
    have hfzn : 0 ≤ fuzzyv / 100 := div_nonneg hfz0 (by norm_num)
    have hfz100 : fuzzyv / 100 ≤ 1 :=
      (div_le_one (by norm_num : (0 : ℚ) < 100)).mpr hfz1
    simp only [combined_score, normalize_fuzzy_score, Option.getD]
    refine ⟨?_, ?_, hcond.2⟩
    · have t1 := mul_nonneg hs hsem0
      have t2 := mul_nonneg hf hfzn
      have t3 := mul_nonneg hc hcm0
      have t4 := mul_nonneg hu hum0
      linarith
    · have t1 := mul_le_of_le_one_right hs hsem1
      have t2 := mul_le_of_le_one_right hf hfz100
      have t3 := mul_le_of_le_one_right hc hcm1
      have t4 := mul_le_of_le_one_right hu hum1
      linarith

/-- C6 witness: the default weight set is accepted and fuses in-range
inputs into [0, 1]. -/
theorem c6_witness :
    0 ≤ combined_score (1/2) 50 1 (1/2) (some ⟨0.7, 0.2, 0.05, 0.05⟩) ∧
    combined_score (1/2) 50 1 (1/2) (some ⟨0.7, 0.2, 0.05, 0.05⟩) ≤
      0.7 + 0.2 + 0.05 + 0.05 ∧
    (0.7 : ℚ) + 0.2 + 0.05 + 0.05 ≤ 1.01 :=
  (c6_amended_theorem 0.7 0.2 0.05 0.05).2 ⟨0.7, 0.2, 0.05, 0.05⟩ (1/2) 50 1 (1/2)
    (by norm_num [mkScoringWeights, weightsTotal]) (by norm_num) (by norm_num)
    (by norm_num) (by norm_num) (by norm_num) (by norm_num) (by norm_num)
    (by norm_num) (Or.inr rfl) (Or.inr (Or.inl rfl))

end ETL
